import Mathlib

/-!
Verification of the ChannelMessageStream subsystem (real-time chat pager)
of the saraav repository: the `useChannelMessages` hook (infinite-query
pagination plus a live Firestore subscription) and the `ChatArea` component
(optimistic echo, send/edit/delete logic).

The embedding is shallow: Firestore timestamps are modelled by their
`seconds` field, which is the only field the chat code ever reads; the
message store is modelled as the ordered document list of a channel's
`messages` collection; JavaScript's stable `Array.prototype.sort` is
modelled by the stable `List.insertionSort`.
-/

namespace Saraav

/-- Firestore `Timestamp` as consumed by the chat code: only `seconds` is read
(`createdAt?.seconds`), so the model keeps just that field. -/
structure Timestamp where
  seconds : Int
deriving DecidableEq, Repr

/-- The `status` field of an optimistic local message (`'sending' | 'error'`);
server-confirmed messages carry no status field (modelled as `none`). -/
inductive MsgStatus
  | sending
  | error
deriving DecidableEq, Repr

/-- The `Message` record of `lib/types` as used by `ChatArea` and
`useChannelMessages`: id, text, sender attribution, timestamps, optional
denormalized reply snapshot, optional optimistic status. -/
structure Message where
  id : String
  text : String
  senderId : String
  senderName : String
  senderPhotoURL : Option String := none
  createdAt : Option Timestamp := none
  editedAt : Option Timestamp := none
  replyToId : Option String := none
  replyToSnippet : Option String := none
  replyToSenderName : Option String := none
  replyToSenderId : Option String := none
  status : Option MsgStatus := none
deriving DecidableEq, Repr

/-- The sort key `a.createdAt?.seconds || 0` used by both `combinedMessages`
(ChatArea) and `flattenedMessages` (useChannelMessages). A missing
`createdAt` yields 0; a present one yields its seconds (JavaScript `||`
maps a 0 seconds value to the fallback 0, which is the same number). -/
def sortKey (m : Message) : Int :=
  (m.createdAt.map Timestamp.seconds).getD 0

/-- The comparator `(a, b) => tA - tB` of the source orders messages by
nondecreasing key. -/
def keyLe (a b : Message) : Prop :=
  sortKey a ≤ sortKey b

instance : DecidableRel keyLe := fun a b => by
  unfold keyLe
  infer_instance

/-- JavaScript's `Array.prototype.sort` is stable; the sort by the
`createdAt` seconds comparator is modelled by the stable insertion sort. -/
def sortByCreatedAt (l : List Message) : List Message :=
  l.insertionSort keyLe

/-- Definition `combinedMessages` from `ChatArea` (part_003, lines 59-69): filter pending
messages whose id already occurs among the server messages, concatenate, and
sort ascending by the seconds key. -/
def combinedMessages (messages pendingMessages : List Message) : List Message :=
  let serverIds := messages.map Message.id
  let activePending := pendingMessages.filter (fun m => !serverIds.contains m.id)
  sortByCreatedAt (messages ++ activePending)

/-- The infinite-query cache shape `{ pages, pageParams }` held by
react-query for key `["messages", channelId]`. -/
structure PagesData where
  pages : List (List Message)
  pageParams : List (Option Timestamp)
deriving DecidableEq, Repr

/-- Definition `flattenedMessages` from `useChannelMessages` (part_007, lines 140-146):
`data?.pages ? data.pages.flat().sort(byCreatedAtSeconds) : []`. -/
def flattenedMessages (data : Option PagesData) : List Message :=
  match data with
  | some d => sortByCreatedAt d.pages.flatten
  | none => []

/-! ## Pagination (`fetchMessages`, `getNextPageParam`) -/

/-- Constant `MESSAGES_PER_PAGE = 20` of the hook. -/
def MESSAGES_PER_PAGE : Nat := 20

/-- Lexicographic ordering of Firestore document ids, modelled structurally
on the character list (by code point) so it evaluates in the kernel. -/
def charListLe : List Char → List Char → Bool
  | [], _ => true
  | _ :: _, [] => false
  | a :: as, b :: bs =>
      if a.toNat < b.toNat then true
      else if b.toNat < a.toNat then false
      else charListLe as bs

/-- Firestore ordering for `orderBy("createdAt", "asc")`: ascending by the
timestamp, ties broken by the document id (Firestore's implicit `__name__`
tiebreaker). -/
def storeLe (a b : Message) : Prop :=
  sortKey a < sortKey b ∨
    (sortKey a = sortKey b ∧ charListLe a.id.data b.id.data = true)

instance : DecidableRel storeLe := fun a b => by
  unfold storeLe
  infer_instance

/-- The document list of a channel's `messages` collection as Firestore
returns it for `orderBy("createdAt", "asc")`. -/
def storeOrdered (store : List Message) : List Message :=
  store.insertionSort storeLe

/-- Firestore `limitToLast(n)`: the last `n` documents of the ordered result. -/
def takeLast (n : Nat) (l : List Message) : List Message :=
  l.drop (l.length - n)

/-- Function `fetchMessages` from `useChannelMessages` (part_007, lines 22-48).
With a page param (a `createdAt` timestamp value) the query is
`orderBy("createdAt","asc"), endBefore(pageParam), limitToLast(20)`:
`endBefore` on a field value ends the range before any document whose
`createdAt` equals the cursor, so exactly the documents with a strictly
smaller key remain. Without a page param it is the plain
`limitToLast(20)` initial load. -/
def fetchMessages (store : List Message) (pageParam : Option Timestamp) :
    List Message :=
  match pageParam with
  | some t =>
      takeLast MESSAGES_PER_PAGE
        ((storeOrdered store).filter (fun m => decide (sortKey m < t.seconds)))
  | none => takeLast MESSAGES_PER_PAGE (storeOrdered store)

/-- Function `getNextPageParam` (part_007, lines 60-63):
`if (!lastPage || lastPage.length < MESSAGES_PER_PAGE) return undefined;
return lastPage[0]?.createdAt;` — note the cursor it returns is the raw
`createdAt` timestamp of the first (oldest) message of the last page. -/
def getNextPageParam (lastPage : List Message) : Option Timestamp :=
  if lastPage.length < MESSAGES_PER_PAGE then none
  else lastPage.head?.bind Message.createdAt

/-- react-query's `hasNextPage`: whether `getNextPageParam` of the last
fetched page is defined. -/
def hasNextPage (d : PagesData) : Bool :=
  match d.pages.getLast? with
  | some p => (getNextPageParam p).isSome
  | none => false

/-- The initial load of the infinite query (`initialPageParam: null`). -/
def initialFetch (store : List Message) : PagesData :=
  ⟨[fetchMessages store none], [none]⟩

/-- react-query's `fetchNextPage`: if `getNextPageParam` of the last page is
defined, fetch with that cursor and append the page; otherwise no-op. -/
def fetchNextPage (store : List Message) (d : PagesData) : PagesData :=
  match d.pages.getLast? with
  | none => d
  | some lastPage =>
      match getNextPageParam lastPage with
      | none => d
      | some cursor =>
          ⟨d.pages ++ [fetchMessages store (some cursor)],
           d.pageParams ++ [some cursor]⟩

/-! ## Live subscription handler (`onSnapshot` callback) -/

/-- A Firestore `docChange` type. -/
inductive ChangeType
  | added
  | modified
  | removed
deriving DecidableEq, Repr

/-- One entry of `snapshot.docChanges()`. -/
structure DocChange where
  type : ChangeType
  message : Message
deriving DecidableEq, Repr

/-- Lines 97-107 of part_007: collect `{id, ...data}` for the changes with
`change.type === "added"`; `modified` and `removed` changes are skipped. -/
def changedNewMessages (changes : List DocChange) : List Message :=
  (changes.filter (fun c => c.type == ChangeType.added)).map DocChange.message

/-- The `onSnapshot` callback of `useChannelMessages` (part_007, lines
94-135) as a transformer of the query cache: return unchanged on an empty
snapshot or when no `added` changes exist; seed the cache when it is empty;
otherwise filter the new messages against every id already in the cache and
append the survivors to page 0 (returning the old object untouched when
none survive). `snapshotDocs` is `snapshot.docs`. -/
def applySnapshot (snapshotDocs : List Message) (changes : List DocChange)
    (old : Option PagesData) : Option PagesData :=
  if snapshotDocs.isEmpty then old
  else
    let newMessages := changedNewMessages changes
    if newMessages.isEmpty then old
    else
      match old with
      | none => some ⟨[newMessages], [none]⟩
      | some d =>
          match d.pages with
          | [] => some ⟨[newMessages], [none]⟩
          | p0 :: rest =>
              let existingIds := (p0 :: rest).flatten.map Message.id
              let uniqueNewMessages :=
                newMessages.filter (fun m => !existingIds.contains m.id)
              if uniqueNewMessages.isEmpty then some d
              else some ⟨(p0 ++ uniqueNewMessages) :: rest, d.pageParams⟩

/-! ## Send logic (`sendMessageLogic` of ChatArea, part_003 lines 84-148) -/

/-- The authenticated user as read by `sendMessageLogic`. -/
structure User where
  uid : String
  displayName : Option String := none
  photoURL : Option String := none
deriving DecidableEq, Repr

/-- JavaScript `a || b` on an optional string: the fallback is taken when
the value is absent or is the empty string (falsy). -/
def jsOrElse (a : Option String) (b : String) : String :=
  match a with
  | some s => if s = "" then b else s
  | none => b

/-- JavaScript `a || undefined` on an optional string. -/
def jsOrUndefined (a : Option String) : Option String :=
  match a with
  | some s => if s = "" then none else some s
  | none => none

/-- The fields `sendMessageLogic` writes with `setDoc` (the document body;
`createdAt` is the `serverTimestamp()` sentinel, resolved by the store). -/
structure WriteData where
  text : String
  senderId : String
  senderName : String
  senderPhotoURL : Option String := none
  replyToId : Option String := none
  replyToSnippet : Option String := none
  replyToSenderName : Option String := none
  replyToSenderId : Option String := none
deriving DecidableEq, Repr

/-- Outcome of the synchronous phase of `sendMessageLogic`: the new
`pendingMessages` state and the store write submitted (`none` when the send
was refused before any store interaction). -/
structure SendResult where
  pending : List Message
  write : Option WriteData
deriving DecidableEq, Repr

/-- JavaScript `String.prototype.trim`: strip leading and trailing
whitespace. Modelled structurally on the character list so concrete inputs
evaluate in the kernel. -/
def jsTrim (s : String) : String :=
  String.mk
    (((s.data.dropWhile Char.isWhitespace).reverse.dropWhile
        Char.isWhitespace).reverse)

/-- Function `sendMessageLogic` (part_003, lines 84-141), synchronous phase: refuse
when the trimmed text is empty or there is no user; refuse with no echo when
`containsProfanity(newMessage)`; otherwise build the optimistic message
(client-generated id, `Timestamp.now()` placeholder, `status: 'sending'`,
reply snapshot truncated to 100 characters), append it to
`pendingMessages`, and submit the store write under the same id. The
profanity filter is the injected `ContentFilter` capability. -/
def sendMessageLogic (containsProfanity : String → Bool) (user : Option User)
    (newMessage : String) (replyingTo : Option Message)
    (newMsgId : String) (now : Timestamp)
    (pending : List Message) : SendResult :=
  if jsTrim newMessage = "" ∨ user.isNone then ⟨pending, none⟩
  else if containsProfanity newMessage then ⟨pending, none⟩
  else
    match user with
    | none => ⟨pending, none⟩
    | some u =>
        let text := jsTrim newMessage
        let optimistic : Message :=
          { id := newMsgId
            text := text
            senderId := u.uid
            senderName := jsOrElse u.displayName "Anonymous"
            senderPhotoURL := jsOrUndefined u.photoURL
            createdAt := some now
            replyToId := replyingTo.map Message.id
            replyToSnippet := replyingTo.map (fun r => r.text.take 100)
            replyToSenderName := replyingTo.map Message.senderName
            replyToSenderId := replyingTo.map Message.senderId
            status := some MsgStatus.sending }
        ⟨pending ++ [optimistic],
         some { text := text
                senderId := u.uid
                senderName := jsOrElse u.displayName "Anonymous"
                senderPhotoURL := jsOrUndefined u.photoURL
                replyToId := replyingTo.map Message.id
                replyToSnippet := replyingTo.map (fun r => r.text.take 100)
                replyToSenderName := replyingTo.map Message.senderName
                replyToSenderId := replyingTo.map Message.senderId }⟩

/-- The `catch` branch of `sendMessageLogic` (part_003, lines 142-147):
`setPendingMessages(prev => prev.map(m => m.id === newMsgId ?
{ ...m, status: 'error' } : m))`. -/
def markSendError (newMsgId : String) (pending : List Message) :
    List Message :=
  pending.map (fun m =>
    if m.id = newMsgId then { m with status := some MsgStatus.error } else m)

/-! ## Deletion (`confirmDeleteMessage`, part_003 lines 159-173) -/

/-- Call `deleteDoc(doc(db, "channels", channelId, "messages", id))`: the store
removes the document with that id. -/
def storeRemove (store : List Message) (idToDelete : String) :
    List Message :=
  store.filter (fun m => !(m.id = idToDelete))

/-! ## Backward-pagination re-entrancy guard -/

/-- The pagination-control state the `ChatArea`/`useChannelMessages` pair
exposes: react-query's `hasNextPage` and `isFetchingNextPage` flags, plus an
instrumentation counter of underlying fetches started (not a source field;
it only counts `fetchNextPage` activations so the theorem can speak about
how many fetches two calls cause). -/
structure StreamState where
  hasNext : Bool
  isFetchingNextPage : Bool
  fetchCount : Nat
deriving DecidableEq, Repr

/-- The Virtuoso `startReached` handler (part_003, lines 310-314):
`if (hasNextPage and not isFetchingNextPage) fetchNextPage()`; react-query sets
`isFetchingNextPage` for the duration of the in-flight fetch. -/
def startReached (s : StreamState) : StreamState :=
  if s.hasNext && !s.isFetchingNextPage then
    { s with isFetchingNextPage := true, fetchCount := s.fetchCount + 1 }
  else s

/-! ## Concrete instances used by witnesses and counterexamples -/

/-- A confirmed server message. -/
def wServerA : Message :=
  { id := "a", text := "first", senderId := "u1", senderName := "U1",
    createdAt := some ⟨10⟩ }

/-- A confirmed server message whose id `x` is also pending locally. -/
def wServerX : Message :=
  { id := "x", text := "hello", senderId := "u2", senderName := "U2",
    createdAt := some ⟨20⟩ }

/-- The optimistic echo of `wServerX`: same id, local placeholder time. -/
def wPendingX : Message :=
  { id := "x", text := "hello", senderId := "u2", senderName := "U2",
    createdAt := some ⟨21⟩, status := some MsgStatus.sending }

/-- An optimistic echo not yet confirmed. -/
def wPendingC : Message :=
  { id := "c", text := "more", senderId := "u2", senderName := "U2",
    createdAt := some ⟨22⟩, status := some MsgStatus.sending }

/-- Stored message `i` of the 25-message demo channel, distinct ascending
timestamps. -/
def demoMsg (i : Nat) : Message :=
  { id := toString (100 + i), text := "m", senderId := "u", senderName := "U",
    createdAt := some ⟨Int.ofNat i + 1⟩ }

/-- A channel holding 25 stored messages with distinct `createdAt`. -/
def demoStore : List Message := (List.range 25).map demoMsg

/-- Stored message `i` of a 21-message channel where messages 0 and 1 share
the same `createdAt` (a tie at the page boundary). -/
def tieMsg (i : Nat) : Message :=
  { id := toString (100 + i), text := "m", senderId := "u", senderName := "U",
    createdAt := some ⟨if i = 0 then 1 else Int.ofNat i⟩ }

/-- A channel holding 21 stored messages with a `createdAt` tie between the
two oldest ones. -/
def tieStore : List Message := (List.range 21).map tieMsg

/-- A rendered message that stays after its neighbour is deleted. -/
def delMsgA : Message :=
  { id := "keep1", text := "a", senderId := "u", senderName := "U",
    createdAt := some ⟨1⟩ }

/-- The rendered message that gets deleted. -/
def delMsgB : Message :=
  { id := "gone1", text := "b", senderId := "u", senderName := "U",
    createdAt := some ⟨2⟩ }

/-- The channel store before the deletion. -/
def delStore : List Message := [delMsgA, delMsgB]

/-- The query cache while both messages are rendered. -/
def delCache : PagesData := ⟨[[delMsgA, delMsgB]], [none]⟩

/-! ## Helper lemmas -/

instance : IsTotal Message keyLe :=
  ⟨fun a b => le_total (sortKey a) (sortKey b)⟩

instance : IsTrans Message keyLe :=
  ⟨fun _ _ _ hab hbc => le_trans hab hbc⟩

theorem sortByCreatedAt_pairwise (l : List Message) :
    List.Pairwise keyLe (sortByCreatedAt l) :=
  List.sorted_insertionSort keyLe l

theorem sortByCreatedAt_perm (l : List Message) :
    List.Perm (sortByCreatedAt l) l :=
  List.perm_insertionSort keyLe l

theorem mem_sortByCreatedAt {m : Message} {l : List Message} :
    m ∈ sortByCreatedAt l ↔ m ∈ l :=
  List.mem_insertionSort keyLe

/-! ## Claims -/

/-- C1: for every state of the stream (server-confirmed messages and pending
optimistic sends, each a set, i.e. with no duplicate ids), the rendered list
contains each id exactly once and consists of exactly the server messages
plus those pending messages whose id is not among the server ids; in
particular any rendered entry sharing its id with a server message IS that
server message, so a confirmed id renders with the confirmed `createdAt`,
not the local placeholder. -/
theorem rendered_dedup_invariant (messages pending : List Message)
    (hs : (messages.map Message.id).Nodup)
    (hp : (pending.map Message.id).Nodup) :
    ((combinedMessages messages pending).map Message.id).Nodup ∧
    (∀ m : Message, m ∈ combinedMessages messages pending ↔
      m ∈ messages ∨ (m ∈ pending ∧ m.id ∉ messages.map Message.id)) ∧
    (∀ s ∈ messages, ∀ m ∈ combinedMessages messages pending,
      m.id = s.id → m = s) := by
  have hperm : List.Perm (combinedMessages messages pending)
      (messages ++ pending.filter
        (fun m => !(messages.map Message.id).contains m.id)) :=
    sortByCreatedAt_perm _
  have hmemf : ∀ m : Message,
      m ∈ pending.filter
        (fun m => !(messages.map Message.id).contains m.id) ↔
      (m ∈ pending ∧ m.id ∉ messages.map Message.id) := by
    intro m
    simp [List.mem_filter, List.contains]
  have hnf : ((pending.filter
      (fun m => !(messages.map Message.id).contains m.id)).map
        Message.id).Nodup :=
    (List.Sublist.map Message.id (List.filter_sublist _)).nodup hp
  have hdisj : List.Disjoint (messages.map Message.id)
      ((pending.filter
        (fun m => !(messages.map Message.id).contains m.id)).map
          Message.id) := by
    intro a ha hb
    rcases List.mem_map.mp hb with ⟨m, hm, rfl⟩
    exact ((hmemf m).mp hm).2 ha
  have hnodup : (((messages ++ pending.filter
      (fun m => !(messages.map Message.id).contains m.id)).map
        Message.id)).Nodup := by
    rw [List.map_append]
    exact List.nodup_append.mpr ⟨hs, hnf, hdisj⟩
  have h1 : ((combinedMessages messages pending).map Message.id).Nodup :=
    ((hperm.map Message.id).nodup_iff).mpr hnodup
  have h2 : ∀ m : Message, m ∈ combinedMessages messages pending ↔
      m ∈ messages ∨ (m ∈ pending ∧ m.id ∉ messages.map Message.id) := by
    intro m
    rw [hperm.mem_iff, List.mem_append, hmemf m]
  refine ⟨h1, h2, ?_⟩
  intro s hsmem m hmmem hid
  have hm' : m ∈ messages ++ pending.filter
      (fun m => !(messages.map Message.id).contains m.id) :=
    hperm.mem_iff.mp hmmem
  have hs' : s ∈ messages ++ pending.filter
      (fun m => !(messages.map Message.id).contains m.id) :=
    List.mem_append_left _ hsmem
  exact List.inj_on_of_nodup_map hnodup hm' hs' hid

/-- Witness for C1: a server state containing ids `a` and `x` and a pending
state containing ids `x` (the just-confirmed echo) and `c`. -/
theorem rendered_dedup_invariant_witness :
    ((combinedMessages [wServerA, wServerX]
        [wPendingX, wPendingC]).map Message.id).Nodup ∧
    (∀ m : Message, m ∈ combinedMessages [wServerA, wServerX]
        [wPendingX, wPendingC] ↔
      m ∈ [wServerA, wServerX] ∨ (m ∈ [wPendingX, wPendingC] ∧
        m.id ∉ [wServerA, wServerX].map Message.id)) ∧
    (∀ s ∈ [wServerA, wServerX],
      ∀ m ∈ combinedMessages [wServerA, wServerX] [wPendingX, wPendingC],
      m.id = s.id → m = s) :=
  rendered_dedup_invariant [wServerA, wServerX] [wPendingX, wPendingC]
    (by decide) (by decide)

theorem filter_not_contains_eq_nil (N : List Message) (ids : List String)
    (h : ∀ m ∈ N, m.id ∈ ids) :
    N.filter (fun m => !ids.contains m.id) = [] :=
  List.filter_eq_nil_iff.mpr (fun m hm => by simp [List.contains, h m hm])

theorem applySnapshot_fixed (docs : List Message) (changes : List DocChange)
    (hdocs : ¬ docs.isEmpty = true)
    (hnew : ¬ (changedNewMessages changes).isEmpty = true)
    (p0 : List Message) (rest : List (List Message))
    (pp : List (Option Timestamp))
    (hin : ∀ m ∈ changedNewMessages changes,
      m.id ∈ (p0 :: rest).flatten.map Message.id) :
    applySnapshot docs changes (some ⟨p0 :: rest, pp⟩)
      = some ⟨p0 :: rest, pp⟩ := by
  have hfilt : (changedNewMessages changes).filter
      (fun m => !((p0 :: rest).flatten.map Message.id).contains m.id) = [] :=
    filter_not_contains_eq_nil _ _ hin
  simp only [applySnapshot, if_neg hdocs, if_neg hnew, hfilt]
  simp

theorem applySnapshot_idem (docs : List Message) (changes : List DocChange)
    (old : Option PagesData) :
    applySnapshot docs changes (applySnapshot docs changes old)
      = applySnapshot docs changes old := by
  by_cases hdocs : docs.isEmpty = true
  · simp [applySnapshot, hdocs]
  · by_cases hnew : (changedNewMessages changes).isEmpty = true
    · simp [applySnapshot, hdocs, hnew]
    · have hseed : applySnapshot docs changes
          (some ⟨[changedNewMessages changes], [none]⟩)
          = some ⟨[changedNewMessages changes], [none]⟩ := by
        apply applySnapshot_fixed docs changes hdocs hnew
        intro m hm
        simp only [List.flatten_cons, List.flatten_nil, List.append_nil]
        exact List.mem_map_of_mem Message.id hm
      cases old with
      | none =>
          have h1 : applySnapshot docs changes none
              = some ⟨[changedNewMessages changes], [none]⟩ := by
            simp [applySnapshot, hdocs, hnew]
          rw [h1]
          exact hseed
      | some d =>
          obtain ⟨pages, pp⟩ := d
          cases pages with
          | nil =>
              have h1 : applySnapshot docs changes (some ⟨[], pp⟩)
                  = some ⟨[changedNewMessages changes], [none]⟩ := by
                simp [applySnapshot, hdocs, hnew]
              rw [h1]
              exact hseed
          | cons p0 rest =>
              by_cases hu : (changedNewMessages changes).filter
                  (fun m =>
                    !((p0 :: rest).flatten.map Message.id).contains m.id)
                  = []
              · have h1 : applySnapshot docs changes (some ⟨p0 :: rest, pp⟩)
                    = some ⟨p0 :: rest, pp⟩ := by
                  simp only [applySnapshot, if_neg hdocs, if_neg hnew, hu]
                  simp
                rw [h1]
                exact h1
              · have h1 : applySnapshot docs changes (some ⟨p0 :: rest, pp⟩)
                    = some ⟨(p0 ++ (changedNewMessages changes).filter
                        (fun m =>
                          !((p0 :: rest).flatten.map Message.id).contains
                            m.id)) :: rest, pp⟩ := by
                  simp only [applySnapshot, if_neg hdocs, if_neg hnew,
                    List.isEmpty_eq_true]
                  rw [if_neg hu, if_neg (by simpa using hdocs),
                    if_neg (by simpa using hnew)]
                rw [h1]
                apply applySnapshot_fixed docs changes hdocs hnew
                intro m hm
                rw [List.flatten_cons, List.map_append, List.mem_append]
                by_cases hmem : m.id ∈ (p0 :: rest).flatten.map Message.id
                · rw [List.flatten_cons, List.map_append,
                    List.mem_append] at hmem
                  rcases hmem with h | h
                  · exact Or.inl
                      (by rw [List.map_append, List.mem_append]
                          exact Or.inl h)
                  · exact Or.inr h
                · refine Or.inl ?_
                  rw [List.map_append, List.mem_append]
                  refine Or.inr (List.mem_map_of_mem Message.id ?_)
                  rw [List.mem_filter]
                  refine ⟨hm, ?_⟩
                  simp only [List.contains, List.elem_eq_mem,
                    Bool.not_eq_true', decide_eq_false_iff_not]
                  exact hmem

/-- C5: applying the same confirmed-insert subscription event twice to the
query cache produces the same cache, and hence the same rendered list, as
applying it once: reconciliation of confirmed-message events is idempotent
and never duplicates or reorders the rendered list. -/
theorem event_application_idempotent (docs : List Message)
    (changes : List DocChange) (old : Option PagesData) :
    applySnapshot docs changes (applySnapshot docs changes old)
      = applySnapshot docs changes old ∧
    flattenedMessages
        (applySnapshot docs changes (applySnapshot docs changes old))
      = flattenedMessages (applySnapshot docs changes old) := by
  have h := applySnapshot_idem docs changes old
  exact ⟨h, by rw [h]⟩

/-- C3: the claim's first half holds — `confirmDeleteMessage` removes the
record from the store — but its second half fails on the code: the
`onSnapshot` handler of `useChannelMessages` only processes `added` doc
changes, so when the subscription delivers the `removed` event for a
deleted message the query cache (and hence the rendered list) still
contains it. Evaluated at a concrete two-message channel: `delMsgB` is
removed from the store, yet after the removal event it is still rendered. -/
theorem deletion_not_reflected :
    delMsgB ∈ delStore ∧
    delMsgB ∉ storeRemove delStore delMsgB.id ∧
    delMsgB ∈ flattenedMessages (some delCache) ∧
    applySnapshot [delMsgA] [⟨ChangeType.removed, delMsgB⟩] (some delCache)
      = some delCache ∧
    delMsgB ∈ flattenedMessages
        (applySnapshot [delMsgA] [⟨ChangeType.removed, delMsgB⟩]
          (some delCache)) :=
  ⟨by decide, by decide, by decide, by decide, by decide⟩

/-- Counterexample to C4 as stated: the pagination cursor produced by
`getNextPageParam` is merely the raw `createdAt` timestamp of the oldest
message of the last page — not a store-native position — and on a channel
with a `createdAt` tie at the page boundary (`tieStore`: messages 0 and 1
share seconds 1), message 0 is skipped: it is in the store, a further page
is fetched, and it never appears in the rendered list. -/
theorem fetchOlder_cursor_counterexample :
    tieMsg 0 ∈ tieStore ∧
    hasNextPage (initialFetch tieStore) = true ∧
    getNextPageParam (fetchMessages tieStore none) = (tieMsg 1).createdAt ∧
    tieMsg 0 ∉ flattenedMessages
        (some (fetchNextPage tieStore (initialFetch tieStore))) :=
  ⟨by decide, by decide, by decide, by decide⟩

theorem charListLe_total (a b : List Char) :
    charListLe a b = true ∨ charListLe b a = true := by
  induction a generalizing b with
  | nil => exact Or.inl rfl
  | cons x xs ih =>
    cases b with
    | nil => exact Or.inr rfl
    | cons y ys =>
      by_cases h1 : x.toNat < y.toNat
      · left
        simp only [charListLe]
        rw [if_pos h1]
      · by_cases h2 : y.toNat < x.toNat
        · right
          simp only [charListLe]
          rw [if_pos h2]
        · rcases ih ys with h | h
          · left
            simp only [charListLe]
            rw [if_neg h1, if_neg h2]
            exact h
          · right
            simp only [charListLe]
            rw [if_neg h2, if_neg h1]
            exact h

theorem charListLe_trans {a b c : List Char}
    (hab : charListLe a b = true) (hbc : charListLe b c = true) :
    charListLe a c = true := by
  induction a generalizing b c with
  | nil => rfl
  | cons x xs ih =>
    cases b with
    | nil => simp [charListLe] at hab
    | cons y ys =>
      cases c with
      | nil => simp [charListLe] at hbc
      | cons z zs =>
        simp only [charListLe] at hab hbc ⊢
        by_cases hxy : x.toNat < y.toNat
        · by_cases hyz : y.toNat < z.toNat
          · rw [if_pos (Nat.lt_trans hxy hyz)]
          · by_cases hzy : z.toNat < y.toNat
            · rw [if_pos hxy] at hab
              rw [if_neg hyz, if_pos hzy] at hbc
              cases hbc
            · have hxz : x.toNat < z.toNat := by omega
              rw [if_pos hxz]
        · by_cases hyx : y.toNat < x.toNat
          · rw [if_neg hxy, if_pos hyx] at hab
            cases hab
          · rw [if_neg hxy, if_neg hyx] at hab
            by_cases hyz : y.toNat < z.toNat
            · have hxz : x.toNat < z.toNat := by omega
              rw [if_pos hxz]
            · by_cases hzy : z.toNat < y.toNat
              · rw [if_neg hyz, if_pos hzy] at hbc
                cases hbc
              · rw [if_neg hyz, if_neg hzy] at hbc
                have hxz : ¬ x.toNat < z.toNat := by omega
                have hzx : ¬ z.toNat < x.toNat := by omega
                rw [if_neg hxz, if_neg hzx]
                exact ih hab hbc

theorem storeLe_sortKey {a b : Message} (h : storeLe a b) :
    sortKey a ≤ sortKey b := by
  rcases h with h | ⟨h, _⟩
  · exact le_of_lt h
  · exact le_of_eq h

theorem pairwise_fetchMessages (store : List Message)
    (cursor : Option Timestamp) :
    List.Pairwise storeLe (fetchMessages store cursor) := by
  have hbase : List.Pairwise storeLe (storeOrdered store) := by
    haveI : IsTotal Message storeLe := ⟨fun a b => by
      simp only [storeLe]
      rcases lt_trichotomy (sortKey a) (sortKey b) with h | h | h
      · exact Or.inl (Or.inl h)
      · rcases charListLe_total a.id.data b.id.data with hc | hc
        · exact Or.inl (Or.inr ⟨h, hc⟩)
        · exact Or.inr (Or.inr ⟨h.symm, hc⟩)
      · exact Or.inr (Or.inl h)⟩
    haveI : IsTrans Message storeLe := ⟨fun a b c hab hbc => by
      simp only [storeLe] at hab hbc ⊢
      rcases hab with h1 | ⟨h1, h1'⟩
      · rcases hbc with h2 | ⟨h2, _⟩
        · exact Or.inl (lt_trans h1 h2)
        · exact Or.inl (h1.trans_eq h2)
      · rcases hbc with h2 | ⟨h2, h2'⟩
        · exact Or.inl (h1.trans_lt h2)
        · exact Or.inr ⟨h1.trans h2, charListLe_trans h1' h2'⟩⟩
    exact List.sorted_insertionSort storeLe store
  cases cursor with
  | none =>
      simp only [fetchMessages, takeLast]
      exact List.Pairwise.sublist (List.drop_sublist _ _) hbase
  | some t =>
      simp only [fetchMessages, takeLast]
      exact List.Pairwise.sublist (List.drop_sublist _ _)
        (List.Pairwise.sublist (List.filter_sublist _) hbase)

/-- C4 amended: every `fetchOlder` call fetches only messages whose
`createdAt` is strictly before the cursor; the cursor is merely the raw
`createdAt` timestamp of the oldest message of the previous page (the
store-native document-snapshot cursor is used only by the legacy
implementation); and the page fetched with the cursor derived from a
fetched page shares no message with that page — no message is delivered
twice across consecutive pages, though messages tied with the boundary
`createdAt` are skipped (see the counterexample). -/
theorem fetchOlder_cursor_amended (store : List Message)
    (cursor : Option Timestamp) (t c : Timestamp) (p : List Message) :
    (∀ m ∈ fetchMessages store (some t), sortKey m < t.seconds) ∧
    (getNextPageParam p = some c →
      p.head?.bind Message.createdAt = some c) ∧
    (getNextPageParam (fetchMessages store cursor) = some c →
      ∀ m ∈ fetchMessages store (some c),
        m ∉ fetchMessages store cursor) := by
  have hbound : ∀ t' : Timestamp, ∀ m ∈ fetchMessages store (some t'),
      sortKey m < t'.seconds := by
    intro t' m hm
    simp only [fetchMessages, takeLast] at hm
    have h1 : m ∈ (storeOrdered store).filter
        (fun m => decide (sortKey m < t'.seconds)) :=
      (List.drop_sublist _ _).subset hm
    have h2 := (List.mem_filter.mp h1).2
    simpa using h2
  have hhead : ∀ (q : List Message) (c' : Timestamp),
      getNextPageParam q = some c' →
      q.head?.bind Message.createdAt = some c' := by
    intro q c' h
    by_cases hl : q.length < MESSAGES_PER_PAGE
    · simp only [getNextPageParam, if_pos hl] at h
      cases h
    · simpa only [getNextPageParam, if_neg hl] using h
  refine ⟨hbound t, hhead p c, ?_⟩
  intro h m hm hmem
  have hh := hhead _ _ h
  have hp := pairwise_fetchMessages store cursor
  cases hq : fetchMessages store cursor with
  | nil =>
      rw [hq] at hh
      cases hh
  | cons h0 rest =>
      rw [hq] at hh hmem hp
      rw [List.head?_cons] at hh
      simp only [Option.bind] at hh
      have hkey0 : sortKey h0 = c.seconds := by
        simp [sortKey, hh]
      have hge : c.seconds ≤ sortKey m := by
        rcases List.mem_cons.mp hmem with rfl | hmr
        · exact le_of_eq hkey0.symm
        · calc c.seconds = sortKey h0 := hkey0.symm
            _ ≤ sortKey m :=
              storeLe_sortKey ((List.pairwise_cons.mp hp).1 m hmr)
      exact absurd (hbound c m hm) (not_lt.mpr hge)

/-- Witness for the amended C4 at the 25-message demo channel: after the
initial load the cursor is the raw timestamp `6` of the oldest loaded
message, the older-page fetch with that cursor returns only strictly older
messages, and that older page shares no message with the initial page. -/
theorem fetchOlder_cursor_amended_witness :
    (∀ m ∈ fetchMessages demoStore (some ⟨6⟩),
      sortKey m < (⟨6⟩ : Timestamp).seconds) ∧
    (fetchMessages demoStore none).head?.bind Message.createdAt
      = some ⟨6⟩ ∧
    (∀ m ∈ fetchMessages demoStore (some ⟨6⟩),
      m ∉ fetchMessages demoStore none) :=
  ⟨(fetchOlder_cursor_amended demoStore none ⟨6⟩ ⟨6⟩
      (fetchMessages demoStore none)).1,
   (fetchOlder_cursor_amended demoStore none ⟨6⟩ ⟨6⟩
      (fetchMessages demoStore none)).2.1 (by decide),
   (fetchOlder_cursor_amended demoStore none ⟨6⟩ ⟨6⟩
      (fetchMessages demoStore none)).2.2 (by decide)⟩

theorem mem_fetchMessages {store : List Message} {cursor : Option Timestamp}
    {m : Message} (h : m ∈ fetchMessages store cursor) : m ∈ store := by
  cases cursor with
  | none =>
      simp only [fetchMessages, takeLast] at h
      have h1 : m ∈ storeOrdered store := (List.drop_sublist _ _).subset h
      exact (List.mem_insertionSort storeLe).mp h1
  | some t =>
      simp only [fetchMessages, takeLast] at h
      have h1 : m ∈ (storeOrdered store).filter
          (fun m => decide (sortKey m < t.seconds)) :=
        (List.drop_sublist _ _).subset h
      have h2 : m ∈ storeOrdered store := (List.mem_filter.mp h1).1
      exact (List.mem_insertionSort storeLe).mp h2

/-- C8: for any store whose records all carry a `createdAt` (server
timestamps always materialize), a fetched page yields no further cursor
exactly when it returned fewer than `MESSAGES_PER_PAGE = 20` records; and
on the concrete 25-message channel with distinct `createdAt`, the initial
load renders the most recent 20 ascending with more history available, and
one `fetchOlder` renders all 25, strictly ascending, with no more
history. -/
theorem fetchOlder_page_and_hasMore (store : List Message)
    (hts : ∀ m ∈ store, m.createdAt.isSome = true) :
    (∀ cursor, getNextPageParam (fetchMessages store cursor) = none ↔
        (fetchMessages store cursor).length < MESSAGES_PER_PAGE) ∧
    hasNextPage (initialFetch demoStore) = true ∧
    flattenedMessages (some (initialFetch demoStore)) = demoStore.drop 5 ∧
    (flattenedMessages (some (initialFetch demoStore))).length = 20 ∧
    hasNextPage (fetchNextPage demoStore (initialFetch demoStore)) = false ∧
    flattenedMessages
        (some (fetchNextPage demoStore (initialFetch demoStore)))
      = demoStore ∧
    (flattenedMessages
        (some (fetchNextPage demoStore (initialFetch demoStore)))).length
      = 25 ∧
    List.Pairwise (fun a b => sortKey a < sortKey b)
      (flattenedMessages
        (some (fetchNextPage demoStore (initialFetch demoStore)))) := by
  refine ⟨?_, by decide⟩
  intro cursor
  constructor
  · intro h
    by_contra hl
    have hne : fetchMessages store cursor ≠ [] := by
      intro hnil
      rw [hnil] at hl
      exact hl (by simp [MESSAGES_PER_PAGE])
    obtain ⟨a, l, ha⟩ := List.exists_cons_of_ne_nil hne
    have hma : a ∈ fetchMessages store cursor := by
      rw [ha]
      exact List.mem_cons_self a l
    have hsome := hts a (mem_fetchMessages hma)
    rw [Option.isSome_iff_exists] at hsome
    obtain ⟨t', ht'⟩ := hsome
    simp only [getNextPageParam, if_neg hl, ha] at h
    simp [List.head?_cons, ht'] at h
    rw [ha] at hl
    simp only [List.length_cons] at hl
    exact hl h
  · intro h
    simp only [getNextPageParam, if_pos h]

/-- Witness for C8 at the 25-message demo channel. -/
theorem fetchOlder_page_and_hasMore_witness :
    (∀ cursor, getNextPageParam (fetchMessages demoStore cursor) = none ↔
        (fetchMessages demoStore cursor).length < MESSAGES_PER_PAGE) ∧
    hasNextPage (initialFetch demoStore) = true ∧
    flattenedMessages (some (initialFetch demoStore)) = demoStore.drop 5 ∧
    (flattenedMessages (some (initialFetch demoStore))).length = 20 ∧
    hasNextPage (fetchNextPage demoStore (initialFetch demoStore)) = false ∧
    flattenedMessages
        (some (fetchNextPage demoStore (initialFetch demoStore)))
      = demoStore ∧
    (flattenedMessages
        (some (fetchNextPage demoStore (initialFetch demoStore)))).length
      = 25 ∧
    List.Pairwise (fun a b => sortKey a < sortKey b)
      (flattenedMessages
        (some (fetchNextPage demoStore (initialFetch demoStore)))) :=
  fetchOlder_page_and_hasMore demoStore (by decide)

/-- C2: every rendered list produced by the stream — `combinedMessages` for
any server/pending state, and `flattenedMessages` for any query-cache state —
is ordered by nondecreasing effective timestamp: for all adjacent rendered
messages `a` before `b`, `sortKey a ≤ sortKey b`, where `sortKey` is the
`createdAt` seconds when present and the local placeholder key otherwise. -/
theorem rendered_order_invariant (messages pending : List Message)
    (d : Option PagesData) :
    List.Pairwise keyLe (combinedMessages messages pending) ∧
    List.Pairwise keyLe (flattenedMessages d) := by
  constructor
  · exact sortByCreatedAt_pairwise _
  · cases d with
    | none => simp [flattenedMessages]
    | some d => exact sortByCreatedAt_pairwise _

/-- C9: `fetchOlder` calls are serialized per stream instance: a call while
a fetch is in flight (`isFetchingNextPage`) is a no-op (ignored, not
queued), so two rapid `startReached` activations from an idle state with
more history cause exactly one underlying fetch. -/
theorem fetchOlder_serialized (s : StreamState)
    (hn : s.hasNext = true) (hf : s.isFetchingNextPage = false) :
    (startReached (startReached s)).fetchCount = s.fetchCount + 1 ∧
    startReached (startReached s) = startReached s ∧
    (∀ t : StreamState, t.isFetchingNextPage = true → startReached t = t) := by
  refine ⟨?_, ?_, ?_⟩
  · simp [startReached, hn, hf]
  · simp [startReached, hn, hf]
  · intro t ht
    simp [startReached, ht]

/-- Witness for C9 at the concrete idle state with more history. -/
theorem fetchOlder_serialized_witness :
    (startReached (startReached ⟨true, false, 0⟩)).fetchCount = 0 + 1 ∧
    startReached (startReached ⟨true, false, 0⟩) = startReached ⟨true, false, 0⟩ ∧
    (∀ t : StreamState, t.isFetchingNextPage = true → startReached t = t) :=
  fetchOlder_serialized ⟨true, false, 0⟩ rfl rfl

/-- C6: a send whose text is empty after trimming, or flagged by the
injected profanity filter, is refused synchronously: the pending list is
unchanged, no store write is submitted, and the rendered list is
unchanged. -/
theorem rejected_send_no_echo (containsProfanity : String → Bool)
    (user : Option User) (newMessage : String) (replyingTo : Option Message)
    (newMsgId : String) (now : Timestamp) (pending messages : List Message)
    (h : jsTrim newMessage = "" ∨ containsProfanity newMessage = true) :
    sendMessageLogic containsProfanity user newMessage replyingTo newMsgId
        now pending = ⟨pending, none⟩ ∧
    combinedMessages messages
        (sendMessageLogic containsProfanity user newMessage replyingTo
          newMsgId now pending).pending
      = combinedMessages messages pending := by
  have h1 : sendMessageLogic containsProfanity user newMessage replyingTo
      newMsgId now pending = ⟨pending, none⟩ := by
    unfold sendMessageLogic
    rcases h with h | h
    · rw [if_pos (Or.inl h)]
    · by_cases h2 : jsTrim newMessage = "" ∨ user.isNone
      · rw [if_pos h2]
      · rw [if_neg h2, if_pos h]
  exact ⟨h1, by rw [h1]⟩

/-- Witness for C6: a concrete filter flags the concrete text, and the send
is refused with no echo. -/
theorem rejected_send_no_echo_witness :
    sendMessageLogic (fun s => s == "darn") (some ⟨"u1", none, none⟩)
        "darn" none "id1" ⟨5⟩ [] = ⟨[], none⟩ ∧
    combinedMessages []
        (sendMessageLogic (fun s => s == "darn") (some ⟨"u1", none, none⟩)
          "darn" none "id1" ⟨5⟩ []).pending
      = combinedMessages [] [] :=
  rejected_send_no_echo (fun s => s == "darn") (some ⟨"u1", none, none⟩)
    "darn" none "id1" ⟨5⟩ [] [] (Or.inr (by decide))

/-- C7: when the store write of a sent message fails after its optimistic
echo was shown, the `catch` branch transitions that echo's status to
`error` under the same id: the echo (with `status = error`) is in the new
pending list, ids and length of the pending list are unchanged, and the
message is still present in the rendered list (given its write failed, its
id is not among the server messages). -/
theorem send_failure_marks_error (messages pending : List Message)
    (e : Message) (x : String)
    (he : e ∈ pending) (hid : e.id = x)
    (hx : x ∉ messages.map Message.id) :
    { e with status := some MsgStatus.error } ∈ markSendError x pending ∧
    (markSendError x pending).map Message.id = pending.map Message.id ∧
    (markSendError x pending).length = pending.length ∧
    { e with status := some MsgStatus.error } ∈
      combinedMessages messages (markSendError x pending) := by
  have hmem : { e with status := some MsgStatus.error } ∈
      markSendError x pending := by
    unfold markSendError
    refine List.mem_map.mpr ⟨e, he, ?_⟩
    simp [hid]
  refine ⟨hmem, ?_, ?_, ?_⟩
  · unfold markSendError
    rw [List.map_map]
    apply List.map_congr_left
    intro a _
    by_cases hax : a.id = x
    · simp only [Function.comp_apply, if_pos hax]
    · simp only [Function.comp_apply, if_neg hax]
  · exact List.length_map _ _
  · unfold combinedMessages
    rw [mem_sortByCreatedAt]
    apply List.mem_append_right
    rw [List.mem_filter]
    refine ⟨hmem, ?_⟩
    simp only [List.contains, Bool.not_eq_true', List.elem_eq_mem,
      decide_eq_false_iff_not]
    rw [hid]
    exact hx

/-- Witness for C7 at a concrete failed echo. -/
theorem send_failure_marks_error_witness :
    { id := "y1", text := "hi", senderId := "u", senderName := "U",
      createdAt := some ⟨7⟩, status := some MsgStatus.error : Message } ∈
      markSendError "y1"
        [{ id := "y1", text := "hi", senderId := "u", senderName := "U",
           createdAt := some ⟨7⟩, status := some MsgStatus.sending }] ∧
    (markSendError "y1"
        [{ id := "y1", text := "hi", senderId := "u", senderName := "U",
           createdAt := some ⟨7⟩,
           status := some MsgStatus.sending }]).map Message.id
      = [{ id := "y1", text := "hi", senderId := "u", senderName := "U",
           createdAt := some ⟨7⟩,
           status := some MsgStatus.sending : Message }].map Message.id ∧
    (markSendError "y1"
        [{ id := "y1", text := "hi", senderId := "u", senderName := "U",
           createdAt := some ⟨7⟩,
           status := some MsgStatus.sending }]).length
      = [{ id := "y1", text := "hi", senderId := "u", senderName := "U",
           createdAt := some ⟨7⟩,
           status := some MsgStatus.sending : Message }].length ∧
    { id := "y1", text := "hi", senderId := "u", senderName := "U",
      createdAt := some ⟨7⟩, status := some MsgStatus.error : Message } ∈
      combinedMessages []
        (markSendError "y1"
          [{ id := "y1", text := "hi", senderId := "u", senderName := "U",
             createdAt := some ⟨7⟩, status := some MsgStatus.sending }]) :=
  send_failure_marks_error []
    [{ id := "y1", text := "hi", senderId := "u", senderName := "U",
       createdAt := some ⟨7⟩, status := some MsgStatus.sending }]
    { id := "y1", text := "hi", senderId := "u", senderName := "U",
      createdAt := some ⟨7⟩, status := some MsgStatus.sending }
    "y1" (by decide) rfl (by decide)

/-- C10: a send performed while replying to message `r` snapshots exactly
the first 100 characters of `r.text` as `replyToSnippet` (never more than
100 characters), and copies `replyToId`, `replyToSenderName` and
`replyToSenderId` unchanged, both in the optimistic echo and in the
submitted store write. -/
theorem reply_snapshot_first_100 (containsProfanity : String → Bool)
    (u : User) (newMessage : String) (r : Message) (newMsgId : String)
    (now : Timestamp) (pending : List Message)
    (ht : ¬ jsTrim newMessage = "")
    (hp : containsProfanity newMessage = false) :
    sendMessageLogic containsProfanity (some u) newMessage (some r) newMsgId
        now pending =
      ⟨pending ++
        [{ id := newMsgId
           text := jsTrim newMessage
           senderId := u.uid
           senderName := jsOrElse u.displayName "Anonymous"
           senderPhotoURL := jsOrUndefined u.photoURL
           createdAt := some now
           replyToId := some r.id
           replyToSnippet := some (r.text.take 100)
           replyToSenderName := some r.senderName
           replyToSenderId := some r.senderId
           status := some MsgStatus.sending }],
       some { text := jsTrim newMessage
              senderId := u.uid
              senderName := jsOrElse u.displayName "Anonymous"
              senderPhotoURL := jsOrUndefined u.photoURL
              replyToId := some r.id
              replyToSnippet := some (r.text.take 100)
              replyToSenderName := some r.senderName
              replyToSenderId := some r.senderId }⟩ ∧
    (r.text.take 100).length ≤ 100 := by
  constructor
  · simp [sendMessageLogic, ht, hp]
  · rw [String.take_eq]
    show (r.text.data.take 100).length ≤ 100
    simp

/-- Witness for C10: a reply to a message whose text is 150 characters long
stores the 100-character truncation. -/
theorem reply_snapshot_first_100_witness :
    sendMessageLogic (fun _ => false) (some ⟨"u1", some "Ada", none⟩)
        "hello" (some { id := "r1",
                        text := String.mk (List.replicate 150 'a'),
                        senderId := "u2", senderName := "Bea",
                        createdAt := some ⟨3⟩ }) "id2" ⟨9⟩ [] =
      ⟨[] ++
        [{ id := "id2"
           text := jsTrim "hello"
           senderId := "u1"
           senderName := jsOrElse (some "Ada") "Anonymous"
           senderPhotoURL := jsOrUndefined none
           createdAt := some ⟨9⟩
           replyToId := some "r1"
           replyToSnippet := some ((String.mk (List.replicate 150 'a')).take 100)
           replyToSenderName := some "Bea"
           replyToSenderId := some "u2"
           status := some MsgStatus.sending }],
       some { text := jsTrim "hello"
              senderId := "u1"
              senderName := jsOrElse (some "Ada") "Anonymous"
              senderPhotoURL := jsOrUndefined none
              replyToId := some "r1"
              replyToSnippet := some ((String.mk (List.replicate 150 'a')).take 100)
              replyToSenderName := some "Bea"
              replyToSenderId := some "u2" }⟩ ∧
    ((String.mk (List.replicate 150 'a')).take 100).length ≤ 100 :=
  reply_snapshot_first_100 (fun _ => false) ⟨"u1", some "Ada", none⟩ "hello"
    { id := "r1", text := String.mk (List.replicate 150 'a'),
      senderId := "u2", senderName := "Bea", createdAt := some ⟨3⟩ }
    "id2" ⟨9⟩ [] (by decide) rfl

end Saraav
